import Mathlib

/-!
Verification development for the object-syntax parser of pdflib
(package `read`, file `parse.go`), shallowly embedded in Lean 4.

Buffers are `List Char`. Each parser that takes the Go buffer by
reference (`line *string`) is embedded as a function
`List Char → Except PErr α × List Char` whose second component is the
caller-visible buffer after the call: a branch of the Go source that
returns without assigning `*line` is translated with the input buffer
in that component, and a branch that assigns `*line = x` before
returning is translated with `x` there.

Machine integers are modelled as `Int` (the 64-bit range check of
`strconv.Atoi` is omitted; no property below depends on overflow).
-/

/-- The Go error values of parse.go, plus `outOfFuel`, an artifact of the
fuelled embedding of the mutually recursive parsers (the Go loops can
fail to advance the cursor and hence diverge; fuel exhaustion stands for
that divergence and corresponds to no Go return). -/
inductive PErr
  | arrayCorrupt
  | arrayNotTerminated
  | dictionaryCorrupt
  | dictionaryDuplicateKey
  | dictionaryNotTerminated
  | hexLiteralCorrupt
  | hexLiteralNotTerminated
  | nameObjectCorrupt
  | noArray
  | noDictionary
  | stringLiteralCorrupt
  | bufNotAvailable
  | malformedNumber
  | xrefStreamMissingSize
  | xrefStreamMissingW
  | xrefStreamCorruptW
  | xrefStreamCorruptIndex
  | objStreamMissingN
  | objStreamMissingFirst
  | objAttrNoBuffer
  | objAttrNoObjMarker
  | objAttrNoObjectNumber
  | objAttrNoObjectNumberEnd
  | objAttrNoGenerationNumber
  | objAttrNoGenerationNumberEnd
  | outOfFuel
  deriving Repr, DecidableEq

/-- The parsed object model (`types` package): the closed variant set the
parser produces. The numeric value of a `float` is not modelled (float64
semantics is out of scope; no claim concerns it): the accepted token is
stored verbatim. -/
inductive PDFObj
  | null
  | boolean (b : Bool)
  | integer (i : Int)
  | float (token : List Char)
  | name (s : List Char)
  | stringLit (s : List Char)
  | hexLit (s : List Char)
  | array (elems : List PDFObj)
  | dict (entries : List (List Char × PDFObj))
  | indRef (objNr genNr : Int)

/-- Go `unicode.IsSpace` restricted to the characters it accepts
(ASCII whitespace plus U+0085 and U+00A0). -/
def goIsSpace (c : Char) : Bool :=
  c == ' ' || c == '\t' || c == '\n' || c == '\x0B' || c == '\x0C' ||
  c == '\r' || c == '\u0085' || c == '\u00A0'

/-- Modelled from the spec (§4.1 `trimLeadingWhitespace`): the helper
`trimLeftSpace` of the repository is not under src/; it strips leading
whitespace. The stripped-count component is dropped (every src call site
discards it). -/
def trimLeftSpace (l : List Char) : List Char :=
  l.dropWhile goIsSpace

/-- A scan stop: whitespace or a member of the given charset. -/
def scanStop (cs : List Char) (c : Char) : Bool :=
  goIsSpace c || cs.any (fun d => c == d)

/-- Index of the first scan stop, if any. -/
def findStop (cs : List Char) : List Char → Option Nat
  | [] => none
  | c :: rest => if scanStop cs c then some 0 else (findStop cs rest).map (· + 1)

/-- Modelled from the spec (§4.1 `scanToWhitespaceOrAnyOf`): the helper
`positionToNextWhitespaceOrChar` of the repository is not under src/.
The spec says end-of-buffer counts as a valid terminator; the src call
sites (`if i1 > 0 … else l[len(l):]`, `if i1 == 0` meaning sole token,
`str = l; if i1 > 0 { str = l[:i1] }`) show that the not-found case is
signalled by 0 with the found flag discarded, so that is what is
modelled here. -/
def positionToNextWhitespaceOrChar (l cs : List Char) : Nat :=
  (findStop cs l).getD 0

/-- parse.go `delimiter`: membership in the string of the seven
delimiter bytes. -/
def delimiter (c : Char) : Bool :=
  ['<', '>', '[', ']', '(', ')', '/'].any (fun d => c == d)

/-- parse.go `forwardParseBuf`. -/
def forwardParseBuf (l : List Char) (pos : Nat) : List Char :=
  if pos < l.length then l.drop pos else []

/-- Go `l[i]` guarded by short-circuit evaluation: `delimiter(l[i])` is
evaluated in the source only when `i` is a found (hence in-range) scan
index, so the out-of-range default is unreachable. -/
def delimAt (l : List Char) (i : Nat) : Bool :=
  match (l.drop i).head? with
  | some c => delimiter c
  | none => false

/-- Decimal digit. -/
def isDigit (c : Char) : Bool :=
  '0' ≤ c && c ≤ '9'

/-- Value of a nonempty all-digit character list. -/
def digitsToNat? (l : List Char) : Option Nat :=
  if !l.isEmpty && l.all isDigit then
    some (l.foldl (fun a c => a * 10 + (c.toNat - 48)) 0)
  else
    none

/-- Go `strconv.Atoi`: optional sign, then one or more decimal digits
consuming the whole token. The 64-bit range check is omitted (see the
file header). -/
def goAtoi (l : List Char) : Option Int :=
  match l with
  | [] => none
  | c :: rest =>
    if c = '+' then (digitsToNat? rest).map Int.ofNat
    else if c = '-' then (digitsToNat? rest).map (fun n => -(Int.ofNat n))
    else (digitsToNat? (c :: rest)).map Int.ofNat

/-- Nonempty and all decimal digits. -/
def allDigits1 (l : List Char) : Bool :=
  !l.isEmpty && l.all isDigit

/-- Exponent digits with an optional sign. -/
def signedAllDigits : List Char → Bool
  | '+' :: r => allDigits1 r
  | '-' :: r => allDigits1 r
  | r => allDigits1 r

/-- Optional exponent suffix. -/
def expOK : List Char → Bool
  | [] => true
  | 'e' :: r => signedAllDigits r
  | 'E' :: r => signedAllDigits r
  | _ => false

/-- Unsigned decimal mantissa with optional fraction and exponent. -/
def mantissaExpOK (b : List Char) : Bool :=
  let ip := b.takeWhile isDigit
  let r1 := b.dropWhile isDigit
  match r1 with
  | [] => !ip.isEmpty
  | '.' :: r2 =>
    let fp := r2.takeWhile isDigit
    let r3 := r2.dropWhile isDigit
    (!ip.isEmpty || !fp.isEmpty) && expOK r3
  | _ => !ip.isEmpty && expOK r1

/-- Go `strconv.ParseFloat` acceptance, decimal syntax and inf/nan forms
(hex floats and digit-group underscores are omitted; no claim depends
on them). The numeric value is not modelled: the accepted token is
returned verbatim. -/
def goParseFloat (l : List Char) : Option (List Char) :=
  let body := match l with
    | '+' :: r => r
    | '-' :: r => r
    | r => r
  let low := body.map Char.toLower
  if mantissaExpOK body || low = ("inf".data) || low = ("infinity".data) ||
      low = ("nan".data) then
    some l
  else
    none

/-- Octal digit. -/
def isOctal (c : Char) : Bool :=
  '0' ≤ c && c ≤ '7'

/-- Octal digit value. -/
def octVal (c : Char) : Nat :=
  c.toNat - 48

/-- Modelled from the spec (§4.2): one decoding step of the
string-literal escape resolution, applied to the head character and the
rest of the interior; returns the emitted characters and the remaining
input. -/
def slStep : Char → List Char → List Char × List Char
  | '\\', rest =>
    match rest with
    | [] => ([], [])
    | c :: r2 =>
      if c = 'n' then (['\n'], r2)
      else if c = 'r' then (['\x0D'], r2)
      else if c = 't' then (['\x09'], r2)
      else if c = 'b' then (['\x08'], r2)
      else if c = 'f' then (['\x0C'], r2)
      else if c = '(' || c = ')' || c = '\\' then ([c], r2)
      else if c = '\x0D' then
        ([], match r2 with
             | '\n' :: r3 => r3
             | _ => r2)
      else if c = '\n' then ([], r2)
      else if isOctal c then
        match r2 with
        | d2 :: r3 =>
          if isOctal d2 then
            match r3 with
            | d3 :: r4 =>
              if isOctal d3 then
                ([Char.ofNat (octVal c * 64 + octVal d2 * 8 + octVal d3)], r4)
              else
                ([Char.ofNat (octVal c * 8 + octVal d2)], r3)
            | [] => ([Char.ofNat (octVal c * 8 + octVal d2)], [])
          else ([Char.ofNat (octVal c)], r2)
        | [] => ([Char.ofNat (octVal c)], [])
      else ([c], r2)
  | '\x0D', rest =>
    (['\n'], match rest with
             | '\n' :: r => r
             | _ => rest)
  | c, rest => ([c], rest)

/-- Driver for `slStep` with fuel; `fuel = input length` always
suffices because every step consumes at least the head character. -/
def slGo : Nat → List Char → List Char
  | 0, _ => []
  | _ + 1, [] => []
  | n + 1, c :: rest =>
    let (out, rest2) := slStep c rest
    out ++ slGo n rest2

/-- Modelled from the spec (§4.2): the helper `stringLiteral` of the
repository (escape-sequence resolution over the balanced-parenthesis
interior) is not under src/. -/
def stringLiteral (l : List Char) : List Char :=
  slGo l.length l

/-- Scanner for `balancedParenthesesPrefix`: current nesting depth and
current index. A backslash escapes the following character. -/
def balParAux : List Char → Nat → Nat → Option Nat
  | [], _, _ => none
  | '\\' :: _ :: rest, d, i => balParAux rest d (i + 2)
  | ['\\'], _, _ => none
  | '(' :: rest, d, i => balParAux rest (d + 1) (i + 1)
  | ')' :: rest, d, i =>
    if d = 1 then some i else balParAux rest (d - 1) (i + 1)
  | _ :: rest, d, i => balParAux rest d (i + 1)

/-- Modelled from the spec (§4.2): the helper
`balancedParenthesesPrefix` of the repository is not under src/; on a
buffer starting with `(` it returns the index of the parenthesis that
closes the literal at nesting depth zero (escaped parentheses do not
count), or `none` when the parentheses are unbalanced (the Go negative
return). -/
def balancedParenthesesPrefix (l : List Char) : Option Nat :=
  balParAux l 0 0

/-- Hex digit. -/
def isHexDigitB (c : Char) : Bool :=
  isDigit c || ('a' ≤ c && c ≤ 'f') || ('A' ≤ c && c ≤ 'F')

/-- Hex digit value. -/
def hexVal (c : Char) : Nat :=
  if isDigit c then c.toNat - 48
  else if 'a' ≤ c && c ≤ 'f' then c.toNat - 87
  else c.toNat - 55

/-- Pairs of hex digits to bytes; an odd trailing digit is padded with
a trailing zero digit. -/
def hexPairs : List Char → List Char
  | [] => []
  | [d] => [Char.ofNat (hexVal d * 16)]
  | d1 :: d2 :: rest => Char.ofNat (hexVal d1 * 16 + hexVal d2) :: hexPairs rest

/-- Modelled from the spec (§4.3): the helper `hexString` of the
repository is not under src/; whitespace inside the literal is
tolerated, any other non-hex-digit character fails. -/
def hexString (l : List Char) : Option (List Char) :=
  let cleaned := l.filter (fun c => !goIsSpace c)
  if cleaned.all isHexDigitB then some (hexPairs cleaned) else none

/-- Go `strings.Index` specialised to character lists: index of the
first occurrence of `pat`, if any. -/
def strIndex (pat : List Char) : List Char → Option Nat
  | [] => if pat.isEmpty then some 0 else none
  | c :: t =>
    if pat.isPrefixOf (c :: t) then some 0 else (strIndex pat t).map (· + 1)

/-- The charset `"/<([]>"` passed by `parseNumericOrIndRef` to the scan
(note: it does not contain the closing parenthesis). -/
def numStopChars : List Char :=
  ['/', '<', '(', '[', ']', '>']

/-- The charset `"/<>()[]"` passed by `parseName` to the scan. -/
def nameStopChars : List Char :=
  ['/', '<', '>', '(', ')', '[', ']']

/-- parse.go `parseNumericOrIndRef`, translated return by return. The
branch at the end-of-buffer-after-second-integer case assigns the Go
local `l` (`l = l1`) rather than `*line`, so the caller-visible buffer
is left unchanged there; the translation reproduces that. -/
def parseNumericOrIndRef (line : List Char) : Except PErr PDFObj × List Char :=
  if line.isEmpty then (.error .bufNotAvailable, line)
  else
    let l := line
    let i1 := positionToNextWhitespaceOrChar l numStopChars
    let l1 := if i1 > 0 then l.drop i1 else l.drop l.length
    let str := if i1 > 0 then l.take i1 else l
    match goAtoi str with
    | none =>
      match goParseFloat str with
      | none => (.error .malformedNumber, line)
      | some f => (.ok (.float f), l1)
    | some i =>
      if i1 = 0 || delimAt l i1 then (.ok (.integer i), l1)
      else
        let iref1 := i
        let la := trimLeftSpace (l.drop i1)
        if la.isEmpty then (.ok (.integer i), l1)
        else
          let i2 := positionToNextWhitespaceOrChar la numStopChars
          if i2 = 0 || delimAt la i2 then (.ok (.integer i), l1)
          else
            let str2 := if i2 > 0 then la.take i2 else la
            match goAtoi str2 with
            | none => (.ok (.integer i), l1)
            | some iref2 =>
              let lb := trimLeftSpace (la.drop i2)
              match lb with
              | [] => (.ok (.integer i), line)
              | c :: _ =>
                if c = 'R' then
                  (.ok (.indRef iref1 iref2), forwardParseBuf lb 1)
                else
                  (.ok (.integer i), l1)

example : parseNumericOrIndRef ("123 0 R".data) = (.ok (.indRef 123 0), []) := by rfl
example : parseNumericOrIndRef ("123 0 foo".data) = (.ok (.integer 123), (" 0 foo".data)) := by rfl
example : parseNumericOrIndRef ("123 0 ".data) = (.ok (.integer 123), ("123 0 ".data)) := by rfl
example : parseNumericOrIndRef ("1 2 Rx".data) = (.ok (.indRef 1 2), ("x".data)) := by rfl
example : parseNumericOrIndRef ("123".data) = (.ok (.integer 123), []) := by rfl
example : parseNumericOrIndRef ("12.5]".data) = (.ok (.float ("12.5".data)), ("]".data)) := by rfl

/-- parse.go `parseName`, translated return by return. The found flag
of the scan is discarded in the source, so a buffer whose name body
starts with a delimiter (scan stop at position 0 that is not
whitespace) falls into the consume-everything branch. -/
def parseName (line : List Char) : Except PErr (List Char) × List Char :=
  if line.isEmpty then (.error .bufNotAvailable, line)
  else if line.length < 2 ∨ ¬ (['/'].isPrefixOf line) then
    (.error .nameObjectCorrupt, line)
  else
    let l := forwardParseBuf line 1
    let eok := positionToNextWhitespaceOrChar l nameStopChars
    if eok > 0 ∨ goIsSpace (l.headD 'x') then (.ok (l.take eok), l.drop eok)
    else (.ok l, [])

/-- parse.go `parseStringLiteral`, translated return by return. -/
def parseStringLiteral (line : List Char) : Except PErr (List Char) × List Char :=
  if line.isEmpty then (.error .bufNotAvailable, line)
  else if line.length < 2 ∨ ¬ (['('].isPrefixOf line) then
    (.error .stringLiteralCorrupt, line)
  else
    match balancedParenthesesPrefix line with
    | none => (.error .stringLiteralCorrupt, line)
    | some i =>
      (.ok (stringLiteral ((line.take i).drop 1)), forwardParseBuf (line.drop i) 1)

/-- parse.go `parseHexLiteral`, translated return by return. -/
def parseHexLiteral (line : List Char) : Except PErr (List Char) × List Char :=
  if line.isEmpty then (.error .bufNotAvailable, line)
  else if line.length < 3 ∨ ¬ (['<'].isPrefixOf line) then
    (.error .hexLiteralCorrupt, line)
  else
    let l := forwardParseBuf line 1
    match strIndex ['>'] l with
    | none => (.error .hexLiteralNotTerminated, line)
    | some eov =>
      match hexString (l.take eov) with
      | none => (.error .hexLiteralCorrupt, line)
      | some hs => (.ok hs, forwardParseBuf (l.drop eov) 1)

/-- parse.go `parseObjectAttributes`, translated return by return; the
object and generation numbers are returned as values (the Go pointer
results), and the buffer component is `*line` after the call. -/
def parseObjectAttributes (line : List Char) : Except PErr (Int × Int) × List Char :=
  if line.isEmpty then (.error .objAttrNoBuffer, line)
  else
    match strIndex ("obj".data) line with
    | none => (.error .objAttrNoObjMarker, line)
    | some i =>
      let remainder := line.drop (i + 3)
      let h1 := trimLeftSpace (line.take i)
      if h1.isEmpty then (.error .objAttrNoObjectNumber, line)
      else
        let j1 := positionToNextWhitespaceOrChar h1 ['%']
        if j1 = 0 then (.error .objAttrNoObjectNumberEnd, line)
        else
          match goAtoi (h1.take j1) with
          | none => (.error .malformedNumber, line)
          | some objNr =>
            let h2 := trimLeftSpace (h1.drop j1)
            if h2.isEmpty then (.error .objAttrNoGenerationNumber, line)
            else
              let j2 := positionToNextWhitespaceOrChar h2 ['%']
              if j2 = 0 then (.error .objAttrNoGenerationNumberEnd, line)
              else
                match goAtoi (h2.take j2) with
                | none => (.error .malformedNumber, line)
                | some genNr => (.ok (objNr, genNr), remainder)

/-- Modelled from the spec (§4.6, §6): `types.PDFDict.Insert` — ordered
insertion with duplicate detection; inserting an existing key fails
(returns `none`) instead of overwriting. -/
def dictInsert (d : List (List Char × PDFObj)) (k : List Char) (v : PDFObj) :
    Option (List (List Char × PDFObj)) :=
  if d.any (fun e => e.1 == k) then none else some (d ++ [(k, v)])

/-- The five mutually recursive operations of parse.go at one fuel
level: `parseObject`, `parseArray`, `parseDict` and the element loops
of the latter two. -/
structure Parsers where
  pObj : List Char → Except PErr PDFObj × List Char
  pArr : List Char → Except PErr (List PDFObj) × List Char
  pDict : List Char → Except PErr (List (List Char × PDFObj)) × List Char
  pArrLoop : List Char → List PDFObj → Except PErr (List PDFObj × List Char)
  pDictLoop : List Char → List (List Char × PDFObj) →
    Except PErr (List (List Char × PDFObj) × List Char)

/-- Fuel exhausted: stands for divergence of the Go loops (which can
fail to advance the cursor); the loops still recognise their closing
delimiter, which costs no recursion in the source either. -/
def parsersZero : Parsers where
  pObj := fun line => (.error .outOfFuel, line)
  pArr := fun line => (.error .outOfFuel, line)
  pDict := fun line => (.error .outOfFuel, line)
  pArrLoop := fun l acc =>
    match l with
    | ']' :: rest => .ok (acc, rest)
    | _ => .error .outOfFuel
  pDictLoop := fun l d =>
    match l with
    | '>' :: '>' :: rest => .ok (d, rest)
    | _ => .error .outOfFuel

/-- One fuel level of the mutually recursive parsers, each translated
return by return from parse.go (`parseObject`, `parseArray`,
`parseDict` and their element loops). -/
def parsersSucc (P : Parsers) : Parsers where
  pArrLoop := fun l acc =>
    match l with
    | ']' :: rest => .ok (acc, rest)
    | _ =>
      match P.pObj l with
      | (.error e, _) => .error e
      | (.ok obj, l1) =>
        if l1.isEmpty then .error .arrayNotTerminated
        else
          let l2 := trimLeftSpace l1
          if l2.isEmpty then .error .arrayNotTerminated
          else P.pArrLoop l2 (acc ++ [obj])
  pDictLoop := fun l d =>
    match l with
    | '>' :: '>' :: rest => .ok (d, rest)
    | _ =>
      match parseName l with
      | (.error e, _) => .error e
      | (.ok key, l1) =>
        let l2 := trimLeftSpace l1
        if l2.isEmpty then .error .dictionaryNotTerminated
        else
          match P.pObj l2 with
          | (.error e, _) => .error e
          | (.ok obj, l3) =>
            match dictInsert d key obj with
            | none => .error .dictionaryDuplicateKey
            | some d2 =>
              if l3.isEmpty then .error .dictionaryNotTerminated
              else
                let l4 := trimLeftSpace l3
                if l4.isEmpty then .error .dictionaryNotTerminated
                else P.pDictLoop l4 d2
  pArr := fun line =>
    if line.isEmpty then (.error .noArray, line)
    else if ¬ (['['].isPrefixOf line) then (.error .arrayCorrupt, line)
    else if line.length = 1 then (.error .arrayNotTerminated, line)
    else
      let l := trimLeftSpace (forwardParseBuf line 1)
      if l.isEmpty then (.error .arrayNotTerminated, line)
      else
        match P.pArrLoop l [] with
        | .error e => (.error e, line)
        | .ok (arr, l2) => (.ok arr, l2)
  pDict := fun line =>
    if line.isEmpty then (.error .noDictionary, line)
    else if line.length < 4 ∨ ¬ (['<', '<'].isPrefixOf line) then
      (.error .dictionaryCorrupt, line)
    else
      let l := trimLeftSpace (forwardParseBuf line 2)
      if l.isEmpty then (.error .dictionaryNotTerminated, line)
      else
        match P.pDictLoop l [] with
        | .error e => (.error e, line)
        | .ok (d, l2) => (.ok d, l2)
  pObj := fun line =>
    if line.isEmpty then (.error .bufNotAvailable, line)
    else
      match trimLeftSpace line with
      | [] => (.error .bufNotAvailable, line)
      | c :: rest =>
        let l := c :: rest
        if c = '[' then
          match P.pArr l with
          | (.error e, _) => (.error e, line)
          | (.ok arr, l2) => (.ok (.array arr), l2)
        else if c = '/' then
          match parseName l with
          | (.error e, _) => (.error e, line)
          | (.ok n, l2) => (.ok (.name n), l2)
        else if c = '<' then
          if rest.isEmpty then (.error .bufNotAvailable, line)
          else if rest.headD 'x' = '<' then
            match P.pDict l with
            | (.error e, _) => (.error e, line)
            | (.ok d, l2) => (.ok (.dict d), l2)
          else
            match parseHexLiteral l with
            | (.error e, _) => (.error e, line)
            | (.ok h, l2) => (.ok (.hexLit h), l2)
        else if c = '(' then
          match parseStringLiteral l with
          | (.error e, _) => (.error e, line)
          | (.ok s, l2) => (.ok (.stringLit s), l2)
        else if ("null".data).isPrefixOf l then (.ok .null, forwardParseBuf l 4)
        else if ("true".data).isPrefixOf l then
          (.ok (.boolean true), forwardParseBuf l 4)
        else if ("false".data).isPrefixOf l then
          (.ok (.boolean false), forwardParseBuf l 5)
        else
          match parseNumericOrIndRef l with
          | (.error e, _) => (.error e, line)
          | (.ok v, l2) => (.ok v, l2)

/-- The parsers with the given amount of fuel. -/
def mkParsers : Nat → Parsers
  | 0 => parsersZero
  | n + 1 => parsersSucc (mkParsers n)

/-- parse.go `parseObject` with fuel. -/
def parseObject (fuel : Nat) (line : List Char) : Except PErr PDFObj × List Char :=
  (mkParsers fuel).pObj line

/-- parse.go `parseArray` with fuel. -/
def parseArray (fuel : Nat) (line : List Char) :
    Except PErr (List PDFObj) × List Char :=
  (mkParsers fuel).pArr line

/-- parse.go `parseDict` with fuel. -/
def parseDict (fuel : Nat) (line : List Char) :
    Except PErr (List (List Char × PDFObj)) × List Char :=
  (mkParsers fuel).pDict line

example : parseObject 1 ("123 0 R".data) = (.ok (.indRef 123 0), []) := by rfl
example : parseObject 2 ("<<\n>>".data) = (.ok (.dict []), []) := by rfl
example : parseObject 2 ("<<>>".data) = (.ok (.dict []), []) := by rfl
example : parseArray 1 ("[ ]".data) = (.ok [], []) := by rfl
example : parseArray 1 ("[".data) = (.error .arrayNotTerminated, ("[".data)) := by rfl
example : parseArray 1 ("[  ".data) = (.error .arrayNotTerminated, ("[  ".data)) := by rfl
example : parseArray 1 ("x]".data) = (.error .arrayCorrupt, ("x]".data)) := by rfl
example : parseArray 4 ("[1 2]".data) = (.ok [.integer 1, .integer 2], []) := by rfl
example : parseObject 1 ("/Name x".data) = (.ok (.name ("Name".data)), (" x".data)) := by rfl
example : parseName ("/(".data) = (.ok ("(".data), []) := by rfl
example : parseName ("/ x".data) = (.ok [], (" x".data)) := by rfl
example : parseObject 1 ("(a(b)c)rest".data) =
    (.ok (.stringLit ("a(b)c".data)), ("rest".data)) := by rfl
example : parseObject 1 ("<4142> x".data) =
    (.ok (.hexLit ['\x41', '\x42']), (" x".data)) := by rfl
example : parseObjectAttributes ("12 0 obj << >>".data) =
    (.ok (12, 0), (" << >>".data)) := by rfl

/-- Modelled from the spec (§6 collaborator contracts): a stream
dictionary with the typed optional field accessors `Size()`, `Index()`,
`W()`, `Prev()` of the `types` package (outside src/), as consumed by
`parseXRefStreamDict`. -/
structure PDFStreamDict where
  size : Option Int
  index : Option (List PDFObj)
  w : Option (List PDFObj)
  prev : Option Int

/-- The `types.PDFXRefStreamDict` record: the cross-reference-stream
descriptor built by `parseXRefStreamDict`. -/
structure PDFXRefStreamDict where
  streamDict : PDFStreamDict
  size : Int
  objects : List Int
  w : Int × Int × Int
  previousOffset : Option Int

/-- The object numbers contributed by one `Index` pair: the Go loop
`for j := 0; j < count; j++ { append(start+j) }`. -/
def objRange (start count : Int) : List Int :=
  (List.range count.toNat).map (fun j => start + Int.ofNat j)

/-- The Go pair loop `for i := 0; i < len(indArr)/2; i++` of
`parseXRefStreamDict`: a dangling last element of an odd-length array
belongs to no pair and is ignored by the loop bound. -/
def expandIndexPairs : List PDFObj → Except PErr (List Int)
  | [] => .ok []
  | [_] => .ok []
  | a :: b :: rest =>
    match a with
    | .integer s =>
      match b with
      | .integer c =>
        match expandIndexPairs rest with
        | .error e => .error e
        | .ok tail => .ok (objRange s c ++ tail)
      | _ => .error .xrefStreamCorruptIndex
    | _ => .error .xrefStreamCorruptIndex

/-- The object-number list step of parse.go `parseXRefStreamDict`: the
guard `len(indArr)%2 > 1` is the literal source condition. -/
def xrefObjects (size : Int) : Option (List PDFObj) → Except PErr (List Int)
  | some indArr =>
    if indArr.length % 2 > 1 then .error .xrefStreamCorruptIndex
    else expandIndexPairs indArr
  | none => .ok ((List.range size.toNat).map (fun j => Int.ofNat j))

/-- parse.go `parseXRefStreamDict`. -/
def parseXRefStreamDict (sd : PDFStreamDict) : Except PErr PDFXRefStreamDict :=
  match sd.size with
  | none => .error .xrefStreamMissingSize
  | some size =>
    match xrefObjects size sd.index with
    | .error e => .error e
    | .ok objs =>
      match sd.w with
      | none => .error .xrefStreamMissingW
      | some arr =>
        match arr with
        | [a0, a1, a2] =>
          match a0 with
          | .integer i1 =>
            if i1 < 0 then .error .xrefStreamCorruptW
            else
              match a1 with
              | .integer i2 =>
                if i2 < 0 then .error .xrefStreamCorruptW
                else
                  match a2 with
                  | .integer i3 =>
                    if i3 < 0 then .error .xrefStreamCorruptW
                    else .ok ⟨sd, size, objs, (i1, i2, i3), sd.prev⟩
                  | _ => .error .xrefStreamCorruptW
              | _ => .error .xrefStreamCorruptW
          | _ => .error .xrefStreamCorruptW
        | _ => .error .xrefStreamCorruptW

/-- The spec's error taxonomy (§7): the kind of each error value.
`fuelExhausted` is the artifact kind of `PErr.outOfFuel` (not a spec
kind); the parseObjectAttributes header errors are grouped under one
header kind (§4.9 names no dedicated kinds for them). -/
inductive ErrKind
  | noBuffer
  | corruptArray
  | unterminatedArray
  | corruptDictionary
  | unterminatedDictionary
  | duplicateKey
  | corruptStringLiteral
  | corruptHexLiteral
  | unterminatedHexLiteral
  | corruptNameObject
  | malformedNumber
  | missingSizeEntry
  | missingFieldWidths
  | corruptFieldWidths
  | corruptIndexEntry
  | missingFirstOffset
  | missingObjectCount
  | corruptObjectHeader
  | fuelExhausted
  deriving Repr, DecidableEq

/-- Modelled from the spec (§7): classification of the Go error values
into the spec's error kinds. `NoBuffer` is defined there as "an empty
or absent input cursor offered to any parser", which is precisely when
`errBufNotAvailable` and the dedicated empty-input errors of the array
and dictionary parsers (`errNoArray`, `errNoDictionary`) fire. -/
def errKind : PErr → ErrKind
  | .bufNotAvailable => .noBuffer
  | .noArray => .noBuffer
  | .noDictionary => .noBuffer
  | .arrayCorrupt => .corruptArray
  | .arrayNotTerminated => .unterminatedArray
  | .dictionaryCorrupt => .corruptDictionary
  | .dictionaryNotTerminated => .unterminatedDictionary
  | .dictionaryDuplicateKey => .duplicateKey
  | .stringLiteralCorrupt => .corruptStringLiteral
  | .hexLiteralCorrupt => .corruptHexLiteral
  | .hexLiteralNotTerminated => .unterminatedHexLiteral
  | .nameObjectCorrupt => .corruptNameObject
  | .malformedNumber => .malformedNumber
  | .xrefStreamMissingSize => .missingSizeEntry
  | .xrefStreamMissingW => .missingFieldWidths
  | .xrefStreamCorruptW => .corruptFieldWidths
  | .xrefStreamCorruptIndex => .corruptIndexEntry
  | .objStreamMissingN => .missingObjectCount
  | .objStreamMissingFirst => .missingFirstOffset
  | .objAttrNoBuffer => .noBuffer
  | .objAttrNoObjMarker => .corruptObjectHeader
  | .objAttrNoObjectNumber => .corruptObjectHeader
  | .objAttrNoObjectNumberEnd => .corruptObjectHeader
  | .objAttrNoGenerationNumber => .corruptObjectHeader
  | .objAttrNoGenerationNumberEnd => .corruptObjectHeader
  | .outOfFuel => .fuelExhausted

/-- Spec-side chunking of an `Index` array into (start, count) pairs:
`none` when an element of a complete pair is not an integer; a dangling
last element (odd length) belongs to no pair. -/
def intPairs : List PDFObj → Option (List (Int × Int))
  | [] => some []
  | [_] => some []
  | a :: b :: rest =>
    match a, b with
    | .integer s, .integer c => (intPairs rest).map (fun ps => (s, c) :: ps)
    | _, _ => none

/-- The sum of the counts of a list of `Index` (start, count) pairs. -/
def indexCountSum (ps : List (Int × Int)) : Int :=
  (ps.map (fun p => p.2)).sum

example :
    parseXRefStreamDict
      ⟨some 20, some [.integer 2, .integer 3, .integer 10, .integer 1],
        some [.integer 1, .integer 2, .integer 1], none⟩ =
    .ok ⟨⟨some 20, some [.integer 2, .integer 3, .integer 10, .integer 1],
        some [.integer 1, .integer 2, .integer 1], none⟩,
      20, [2, 3, 4, 10], (1, 2, 1), none⟩ := by rfl

example :
    parseXRefStreamDict ⟨some 4, none, some [.integer 1, .integer 2, .integer 1], some 99⟩ =
    .ok ⟨⟨some 4, none, some [.integer 1, .integer 2, .integer 1], some 99⟩,
      4, [0, 1, 2, 3], (1, 2, 1), some 99⟩ := by rfl

example :
    parseXRefStreamDict ⟨some 1, some [.integer 2], some [.integer 1, .integer 1, .integer 1], none⟩ =
    .ok ⟨⟨some 1, some [.integer 2], some [.integer 1, .integer 1, .integer 1], none⟩,
      1, [], (1, 1, 1), none⟩ := by rfl

example :
    parseXRefStreamDict ⟨some 3, none, some [.integer 1, .integer 2], none⟩ =
    .error .xrefStreamCorruptW := by rfl

example :
    parseXRefStreamDict ⟨some 3, none, none, none⟩ =
    .error .xrefStreamMissingW := by rfl

example :
    parseXRefStreamDict ⟨some 3, none, some [.integer 1, .integer (-2), .integer 1], none⟩ =
    .error .xrefStreamCorruptW := by rfl

example :
    parseXRefStreamDict ⟨some 5, some [.integer 0, .integer (-1)],
      some [.integer 1, .integer 1, .integer 1], none⟩ =
    .ok ⟨⟨some 5, some [.integer 0, .integer (-1)],
      some [.integer 1, .integer 1, .integer 1], none⟩, 5, [], (1, 1, 1), none⟩ := by rfl

theorem forwardParseBuf_eq_drop (l : List Char) (pos : Nat) :
    forwardParseBuf l pos = l.drop pos := by
  unfold forwardParseBuf
  split
  · rfl
  · rw [List.drop_eq_nil_of_le]
    omega

theorem delimiter_eq_false_of_space {c : Char} (h : goIsSpace c = true) :
    delimiter c = false := by
  simp only [goIsSpace, Bool.or_eq_true, beq_iff_eq] at h
  casesm* _ ∨ _ <;> subst_vars <;> decide

theorem scanStop_eq_true_of_space {cs : List Char} {c : Char}
    (h : goIsSpace c = true) : scanStop cs c = true := by
  simp [scanStop, h]

theorem goIsSpace_eq_false_of_scanStop {cs : List Char} {c : Char}
    (h : scanStop cs c = false) : goIsSpace c = false := by
  simp only [scanStop, Bool.or_eq_false_iff] at h
  exact h.1

theorem scanStop_num_of_tokenChar {c : Char}
    (h : c = '+' ∨ c = '-' ∨ isDigit c = true) :
    scanStop numStopChars c = false := by
  rcases h with rfl | rfl | hd
  · decide
  · decide
  · by_contra hs
    rw [Bool.not_eq_false] at hs
    simp only [scanStop, numStopChars, goIsSpace, List.any_cons, List.any_nil,
      Bool.or_eq_true, beq_iff_eq, Bool.or_false] at hs
    casesm* _ ∨ _ <;> subst_vars <;> exact absurd hd (by decide)

theorem digitsToNat?_props {l : List Char} {v : Nat}
    (h : digitsToNat? l = some v) : l ≠ [] ∧ ∀ c ∈ l, isDigit c = true := by
  unfold digitsToNat? at h
  split at h
  · rename_i hcond
    rw [Bool.and_eq_true, Bool.not_eq_true'] at hcond
    refine ⟨?_, List.all_eq_true.mp hcond.2⟩
    intro hnil
    subst hnil
    simp at hcond
  · exact absurd h (by simp)

theorem goAtoi_props {t : List Char} {n : Int} (h : goAtoi t = some n) :
    t ≠ [] ∧ ∀ c ∈ t, c = '+' ∨ c = '-' ∨ isDigit c = true := by
  rcases t with _ | ⟨c, rest⟩
  · simp [goAtoi] at h
  · refine ⟨by simp, ?_⟩
    intro d hd
    by_cases hp : c = '+'
    · subst hp
      rcases hv : digitsToNat? rest with _ | v
      · simp [goAtoi, hv] at h
      · rcases List.mem_cons.mp hd with rfl | hmem
        · exact Or.inl rfl
        · exact Or.inr (Or.inr ((digitsToNat?_props hv).2 d hmem))
    · by_cases hm : c = '-'
      · subst hm
        rcases hv : digitsToNat? rest with _ | v
        · simp [goAtoi, hv] at h
        · rcases List.mem_cons.mp hd with rfl | hmem
          · exact Or.inr (Or.inl rfl)
          · exact Or.inr (Or.inr ((digitsToNat?_props hv).2 d hmem))
      · rcases hv : digitsToNat? (c :: rest) with _ | v
        · simp [goAtoi, hv, hp, hm] at h
        · exact Or.inr (Or.inr ((digitsToNat?_props hv).2 d hd))

theorem findStop_append_token {cs t : List Char} {w : Char} (r : List Char)
    (ht : ∀ c ∈ t, scanStop cs c = false) (hw : scanStop cs w = true) :
    findStop cs (t ++ w :: r) = some t.length := by
  induction t with
  | nil => simp [findStop, hw]
  | cons c t ih =>
    have hc := ht c (List.mem_cons_self _ _)
    have ih' := ih (fun d hd => ht d (List.mem_cons_of_mem c hd))
    simp only [List.cons_append, findStop, hc]
    simp [ih']

theorem pos_append_token {cs t : List Char} {w : Char} (r : List Char)
    (ht : ∀ c ∈ t, scanStop cs c = false) (hw : scanStop cs w = true) :
    positionToNextWhitespaceOrChar (t ++ w :: r) cs = t.length := by
  unfold positionToNextWhitespaceOrChar
  rw [findStop_append_token r ht hw]
  rfl

theorem trimLeftSpace_append_spaces {w l : List Char}
    (hw : ∀ c ∈ w, goIsSpace c = true) :
    trimLeftSpace (w ++ l) = trimLeftSpace l := by
  induction w with
  | nil => rfl
  | cons c w ih =>
    have hc := hw c (List.mem_cons_self _ _)
    simp only [List.cons_append, trimLeftSpace, List.dropWhile_cons, hc, if_true]
    exact ih (fun d hd => hw d (List.mem_cons_of_mem c hd))

theorem trimLeftSpace_cons_of_nonspace {c : Char} {l : List Char}
    (hc : goIsSpace c = false) : trimLeftSpace (c :: l) = c :: l := by
  simp [trimLeftSpace, List.dropWhile_cons, hc]

/-- C1 (amended): on a buffer made of two whitespace-separated valid
integer tokens, further whitespace, and a third token,
`parseNumericOrIndRef` commits IndirectReference(first, second) and
advances exactly one byte past the `R` precisely when the FIRST BYTE of
the third token is `R` (the source checks `l[0] == 'R'` only, not the
whole token); otherwise it returns Integer(first) with the cursor
positioned right after the first token. -/
theorem parseNumericOrIndRef_headR_commits
    (t1 w1 t2 w2 rs : List Char) (r : Char) (n1 n2 : Int)
    (h1 : goAtoi t1 = some n1) (h2 : goAtoi t2 = some n2)
    (hw1 : ∀ c ∈ w1, goIsSpace c = true) (hw1n : w1 ≠ [])
    (hw2 : ∀ c ∈ w2, goIsSpace c = true) (hw2n : w2 ≠ [])
    (hr : goIsSpace r = false) :
    parseNumericOrIndRef (t1 ++ (w1 ++ (t2 ++ (w2 ++ r :: rs)))) =
      if r = 'R' then (.ok (.indRef n1 n2), rs)
      else (.ok (.integer n1), w1 ++ (t2 ++ (w2 ++ r :: rs))) := by
  obtain ⟨ht1ne, ht1c⟩ := goAtoi_props h1
  obtain ⟨ht2ne, ht2c⟩ := goAtoi_props h2
  obtain ⟨s1, w1t, rfl⟩ := List.exists_cons_of_ne_nil hw1n
  obtain ⟨s2, w2t, rfl⟩ := List.exists_cons_of_ne_nil hw2n
  obtain ⟨c2, t2t, rfl⟩ := List.exists_cons_of_ne_nil ht2ne
  have hs1 : goIsSpace s1 = true := hw1 s1 (List.mem_cons_self _ _)
  have hs2 : goIsSpace s2 = true := hw2 s2 (List.mem_cons_self _ _)
  have ht1stop : ∀ c ∈ t1, scanStop numStopChars c = false :=
    fun c hc => scanStop_num_of_tokenChar (ht1c c hc)
  have ht2stop : ∀ c ∈ c2 :: t2t, scanStop numStopChars c = false :=
    fun c hc => scanStop_num_of_tokenChar (ht2c c hc)
  have hc2ns : goIsSpace c2 = false :=
    goIsSpace_eq_false_of_scanStop (ht2stop c2 (List.mem_cons_self _ _))
  have hBne : (t1 ++ ((s1 :: w1t) ++ ((c2 :: t2t) ++ ((s2 :: w2t) ++ r :: rs)))).isEmpty
      = false := by
    obtain ⟨a, t1', rfl⟩ := List.exists_cons_of_ne_nil ht1ne
    rfl
  have hpos1 : positionToNextWhitespaceOrChar
      (t1 ++ ((s1 :: w1t) ++ ((c2 :: t2t) ++ ((s2 :: w2t) ++ r :: rs))))
      numStopChars = t1.length := by
    rw [List.cons_append]
    exact pos_append_token _ ht1stop (scanStop_eq_true_of_space hs1)
  have hlen1 : 0 < t1.length := List.length_pos.mpr ht1ne
  have hlen1' : ¬ t1.length = 0 := by omega
  have htake1 : (t1 ++ ((s1 :: w1t) ++ ((c2 :: t2t) ++ ((s2 :: w2t) ++ r :: rs)))).take
      t1.length = t1 := List.take_left t1 _
  have hdrop1 : (t1 ++ ((s1 :: w1t) ++ ((c2 :: t2t) ++ ((s2 :: w2t) ++ r :: rs)))).drop
      t1.length = (s1 :: w1t) ++ ((c2 :: t2t) ++ ((s2 :: w2t) ++ r :: rs)) :=
    List.drop_left t1 _
  have hdelim1 : delimAt
      (t1 ++ ((s1 :: w1t) ++ ((c2 :: t2t) ++ ((s2 :: w2t) ++ r :: rs)))) t1.length
      = false := by
    unfold delimAt
    rw [hdrop1]
    simp only [List.cons_append, List.head?_cons]
    exact delimiter_eq_false_of_space hs1
  have hla : trimLeftSpace ((s1 :: w1t) ++ ((c2 :: t2t) ++ ((s2 :: w2t) ++ r :: rs)))
      = (c2 :: t2t) ++ ((s2 :: w2t) ++ r :: rs) := by
    rw [trimLeftSpace_append_spaces hw1]
    rw [List.cons_append]
    rw [trimLeftSpace_cons_of_nonspace hc2ns]
  have hpos2 : positionToNextWhitespaceOrChar
      ((c2 :: t2t) ++ ((s2 :: w2t) ++ r :: rs)) numStopChars
      = (c2 :: t2t).length := by
    rw [List.cons_append (a := s2)]
    exact pos_append_token _ ht2stop (scanStop_eq_true_of_space hs2)
  have hlen2' : ¬ (c2 :: t2t).length = 0 := by simp
  have htake2 : ((c2 :: t2t) ++ ((s2 :: w2t) ++ r :: rs)).take (c2 :: t2t).length
      = c2 :: t2t := List.take_left _ _
  have hdrop2 : ((c2 :: t2t) ++ ((s2 :: w2t) ++ r :: rs)).drop (c2 :: t2t).length
      = (s2 :: w2t) ++ r :: rs := List.drop_left _ _
  have hdelim2 : delimAt ((c2 :: t2t) ++ ((s2 :: w2t) ++ r :: rs)) (c2 :: t2t).length
      = false := by
    unfold delimAt
    rw [hdrop2]
    simp only [List.cons_append, List.head?_cons]
    exact delimiter_eq_false_of_space hs2
  have hlb : trimLeftSpace ((s2 :: w2t) ++ r :: rs) = r :: rs := by
    rw [trimLeftSpace_append_spaces hw2, trimLeftSpace_cons_of_nonspace hr]
  unfold parseNumericOrIndRef
  simp only [hBne, Bool.false_eq_true, if_false, hpos1, hlen1', htake1, hdrop1,
    hdelim1, h1, hla, hpos2, hlen2', htake2, hdrop2, hdelim2, h2, hlb,
    Bool.false_or, Bool.or_self]
  by_cases hR : r = 'R' <;>
    simp [hR, h1, hlen1, hlen1', hlen2', hla, hlb, h2, htake2, hdrop2, hdelim2,
      hpos2, forwardParseBuf_eq_drop]

/-- Witness for C1: the amended statement applied at "123 0 R" (third
token begins with `R`, an indirect reference is committed consuming the
whole buffer) and at "123 0 foo" (it does not, Integer(123) is returned
with the cursor right after "123"). -/
theorem parseNumericOrIndRef_headR_commits_witness :
    parseNumericOrIndRef ("123 0 R".data) = (.ok (.indRef 123 0), []) ∧
    parseNumericOrIndRef ("123 0 foo".data) = (.ok (.integer 123), (" 0 foo".data)) := by
  constructor
  · have h := parseNumericOrIndRef_headR_commits ("123".data) [' '] ("0".data) [' ']
      [] 'R' 123 0 (by decide) (by decide) (by decide) (by decide) (by decide)
      (by decide) (by decide)
    rw [if_pos rfl] at h
    exact h
  · have h := parseNumericOrIndRef_headR_commits ("123".data) [' '] ("0".data) [' ']
      ("oo".data) 'f' 123 0 (by decide) (by decide) (by decide) (by decide)
      (by decide) (by decide) (by decide)
    rw [if_neg (by decide)] at h
    exact h

/-- Counterexample for C1 as stated: on "1 2 Rx" the third
whitespace-separated token is "Rx", which is not exactly "R", yet the
source commits IndirectReference(1, 2) (checking and consuming only the
leading `R` byte), not Integer(1). -/
theorem parseNumericOrIndRef_thirdToken_Rx :
    parseNumericOrIndRef ("1 2 Rx".data) = (.ok (.indRef 1 2), ("x".data)) ∧
    (Except.ok (PDFObj.indRef 1 2) : Except PErr PDFObj) ≠ .ok (.integer 1) := by
  refine ⟨rfl, fun h => ?_⟩
  injection h with h2
  exact PDFObj.noConfusion h2

/-- C2 evaluation: on "123 0 foo" only the first token is consumed and
the remainder is " 0 foo" as specified; but on "123 0 " (nothing but
whitespace after the second integer) the source assigns the Go local
(`l = l1`) instead of `*line`, so the caller's buffer is returned whole
("123 0 ") instead of the specified " 0 ". -/
theorem parseNumericOrIndRef_trailingWhitespace_eval :
    parseNumericOrIndRef ("123 0 foo".data) = (.ok (.integer 123), (" 0 foo".data)) ∧
    parseNumericOrIndRef ("123 0 ".data) = (.ok (.integer 123), ("123 0 ".data)) :=
  ⟨rfl, rfl⟩

/-- C8 evaluation: the name parser consumes until whitespace or
delimiter with the terminator left unconsumed in general, but on "/("
(and "/(foo") the delimiter stands at position 0 of the name body, the
discarded found-flag of the scan makes that case indistinguishable from
no-terminator, and the whole rest of the buffer is consumed INTO the
name: the result is Name "(" (resp. Name "(foo") with an empty
remainder, not the specified empty Name with the delimiter left in the
buffer. -/
theorem parseName_slashParen_eval :
    parseName ("/abc de".data) = (.ok ("abc".data), (" de".data)) ∧
    parseName ("/a(b".data) = (.ok ("a".data), ("(b".data)) ∧
    parseName ("/ x".data) = (.ok [], (" x".data)) ∧
    parseName ("/(".data) = (.ok ("(".data), []) ∧
    parseName ("/(foo".data) = (.ok ("(foo".data), []) :=
  ⟨rfl, rfl, rfl, rfl, rfl⟩

theorem trimLeftSpace_all_spaces {w : List Char}
    (hw : ∀ c ∈ w, goIsSpace c = true) : trimLeftSpace w = [] := by
  have h := trimLeftSpace_append_spaces (l := []) hw
  simpa using h

/-- Counterexample for C6 as stated: "[ ]" (whitespace-only interior
closed by a bracket) parses successfully as the empty array; it does
not fail with UnterminatedArray. -/
theorem parseArray_wsInterior_succeeds :
    parseArray 1 ("[ ]".data) = (.ok [], []) ∧
    (Except.ok ([] : List PDFObj) : Except PErr (List PDFObj)) ≠
      .error .arrayNotTerminated :=
  ⟨rfl, fun h => Except.noConfusion h⟩

/-- C6 (amended): `parseArray` on "[ ]" succeeds with the empty array
(the whitespace-only interior is closed by `]`); an input of exactly
"[", or "[" followed only by whitespace, fails with UnterminatedArray;
a nonempty input that does not start with "[" fails with CorruptArray
(leaving the buffer untouched in the error cases). -/
theorem parseArray_error_cases :
    parseArray 1 ("[ ]".data) = (.ok [], []) ∧
    (∀ fuel (ws : List Char), (∀ c ∈ ws, goIsSpace c = true) →
      parseArray (fuel + 1) ('[' :: ws) = (.error .arrayNotTerminated, '[' :: ws)) ∧
    (∀ fuel (c : Char) (l : List Char), c ≠ '[' →
      parseArray (fuel + 1) (c :: l) = (.error .arrayCorrupt, c :: l)) := by
  refine ⟨rfl, ?_, ?_⟩
  · intro fuel ws hws
    show (parsersSucc (mkParsers fuel)).pArr ('[' :: ws) = _
    rcases ws with _ | ⟨c, w⟩
    · rfl
    · have ht : trimLeftSpace (c :: w) = [] := trimLeftSpace_all_spaces hws
      have hfwd : forwardParseBuf ('[' :: c :: w) 1 = c :: w := by
        rw [forwardParseBuf_eq_drop]
        rfl
      simp [parsersSucc, hfwd, ht, List.isPrefixOf]
  · intro fuel c l hc
    show (parsersSucc (mkParsers fuel)).pArr (c :: l) = _
    simp [parsersSucc, List.isPrefixOf, hc, Ne.symm hc]

/-- Routing lemma: when the buffer starts with "<<" the dispatcher
hands the (already whitespace-free) buffer to the dictionary parser of
the next-lower fuel level and wraps its result. -/
theorem pObj_dict_route (P : Parsers) (ws : List Char)
    (d : List (List Char × PDFObj)) (l2 : List Char)
    (hP : P.pDict ('<' :: '<' :: ws) = (.ok d, l2)) :
    (parsersSucc P).pObj ('<' :: '<' :: ws) = (.ok (.dict d), l2) := by
  have htop : trimLeftSpace ('<' :: '<' :: ws) = '<' :: '<' :: ws :=
    trimLeftSpace_cons_of_nonspace (by decide)
  simp only [parsersSucc, htop]
  simp [hP]

/-- The dictionary parser at any positive fuel level accepts
"<<" ++ whitespace ++ ">>" as the empty dictionary. -/
theorem pDict_empty (P : Parsers) (ws : List Char)
    (hws : ∀ c ∈ ws, goIsSpace c = true)
    (hloop : P.pDictLoop ['>', '>'] [] = .ok ([], [])) :
    (parsersSucc P).pDict ('<' :: '<' :: (ws ++ ['>', '>'])) = (.ok [], []) := by
  have h4 : ¬ ('<' :: '<' :: (ws ++ ['>', '>'])).length < 4 := by
    simp only [List.length_cons, List.length_append]
    omega
  have hfwd : forwardParseBuf ('<' :: '<' :: (ws ++ ['>', '>'])) 2 = ws ++ ['>', '>'] := by
    rw [forwardParseBuf_eq_drop]
    rfl
  have htrim : trimLeftSpace (ws ++ ['>', '>']) = ['>', '>'] := by
    rw [trimLeftSpace_append_spaces hws]
    rfl
  simp only [parsersSucc]
  rw [if_neg (by simp), if_neg (by simp [h4, List.isPrefixOf])]
  rw [hfwd, htrim]
  simp [hloop]

/-- C7: `parseObject` on a buffer consisting of "<<", whitespace only,
then ">>" succeeds with the empty dictionary, consuming the whole
buffer. -/
theorem parseObject_emptyDict (fuel : Nat) (ws : List Char)
    (hws : ∀ c ∈ ws, goIsSpace c = true) :
    parseObject (fuel + 2) ('<' :: '<' :: (ws ++ ['>', '>'])) =
      (.ok (.dict []), []) := by
  have hloop : (mkParsers fuel).pDictLoop ['>', '>'] [] = .ok ([], []) := by
    cases fuel
    · rfl
    · rfl
  have hdict : (mkParsers (fuel + 1)).pDict ('<' :: '<' :: (ws ++ ['>', '>'])) =
      (.ok [], []) := pDict_empty (mkParsers fuel) ws hws hloop
  exact pObj_dict_route (mkParsers (fuel + 1)) (ws ++ ['>', '>']) [] [] hdict

/-- Witness for C7 at fuel 2 and a single newline of interior
whitespace. -/
theorem parseObject_emptyDict_witness :
    parseObject 2 ("<<\n>>".data) = (.ok (.dict []), []) := by
  have h := parseObject_emptyDict 0 ['\n'] (by decide)
  exact h

/-- Witness for C6 at "[ " (bracket followed only by whitespace) and
"x" (nonempty, not starting with a bracket). -/
theorem parseArray_error_cases_witness :
    parseArray 1 ['[', ' '] = (.error .arrayNotTerminated, ['[', ' ']) ∧
    parseArray 1 ['x'] = (.error .arrayCorrupt, ['x']) :=
  ⟨parseArray_error_cases.2.1 0 [' '] (by decide),
   parseArray_error_cases.2.2 0 'x' [] (by decide)⟩

/-- C9: every parser offered an empty buffer fails with its designated
empty-input error value, whose kind in the spec's taxonomy is NoBuffer
(`errBufNotAvailable` for the scalar/numeric parsers and the
dispatcher, `errNoArray` / `errNoDictionary` for the array and
dictionary parsers); the dispatcher also reports it when the buffer is
whitespace-only, and in every case the buffer is left untouched. -/
theorem parsers_noBuffer :
    (∀ fuel (ws : List Char), (∀ c ∈ ws, goIsSpace c = true) →
      parseObject (fuel + 1) ws = (.error .bufNotAvailable, ws)) ∧
    (∀ fuel, parseArray (fuel + 1) [] = (.error .noArray, [])) ∧
    (∀ fuel, parseDict (fuel + 1) [] = (.error .noDictionary, [])) ∧
    parseName [] = (.error .bufNotAvailable, []) ∧
    parseStringLiteral [] = (.error .bufNotAvailable, []) ∧
    parseHexLiteral [] = (.error .bufNotAvailable, []) ∧
    parseNumericOrIndRef [] = (.error .bufNotAvailable, []) ∧
    errKind .bufNotAvailable = .noBuffer ∧
    errKind .noArray = .noBuffer ∧
    errKind .noDictionary = .noBuffer := by
  refine ⟨?_, fun fuel => rfl, fun fuel => rfl, rfl, rfl, rfl, rfl, rfl, rfl, rfl⟩
  intro fuel ws hws
  rcases ws with _ | ⟨c, w⟩
  · rfl
  · have ht : trimLeftSpace (c :: w) = [] := trimLeftSpace_all_spaces hws
    show (parsersSucc (mkParsers fuel)).pObj (c :: w) = _
    simp [parsersSucc, ht]

/-- Witness for C9 at fuel 1 and the whitespace-only buffer " ". -/
theorem parsers_noBuffer_witness :
    parseObject 1 [' '] = (.error .bufNotAvailable, [' ']) ∧
    parseArray 1 [] = (.error .noArray, []) :=
  ⟨parsers_noBuffer.1 0 [' '] (by decide), parsers_noBuffer.2.1 0⟩

theorem parseName_shape (l : List Char) :
    (∃ e, parseName l = (.error e, l)) ∨ ∃ v l2, parseName l = (.ok v, l2) := by
  unfold parseName
  repeat'
    first
      | exact Or.inl ⟨_, rfl⟩
      | exact Or.inr ⟨_, _, rfl⟩
      | split
      | simp only []

theorem parseStringLiteral_shape (l : List Char) :
    (∃ e, parseStringLiteral l = (.error e, l)) ∨
      ∃ v l2, parseStringLiteral l = (.ok v, l2) := by
  unfold parseStringLiteral
  repeat'
    first
      | exact Or.inl ⟨_, rfl⟩
      | exact Or.inr ⟨_, _, rfl⟩
      | split

theorem parseHexLiteral_shape (l : List Char) :
    (∃ e, parseHexLiteral l = (.error e, l)) ∨
      ∃ v l2, parseHexLiteral l = (.ok v, l2) := by
  unfold parseHexLiteral
  repeat'
    first
      | exact Or.inl ⟨_, rfl⟩
      | exact Or.inr ⟨_, _, rfl⟩
      | split
      | simp only []

theorem parseNumericOrIndRef_shape (l : List Char) :
    (∃ e, parseNumericOrIndRef l = (.error e, l)) ∨
      ∃ v l2, parseNumericOrIndRef l = (.ok v, l2) := by
  unfold parseNumericOrIndRef
  repeat'
    first
      | exact Or.inl ⟨_, rfl⟩
      | exact Or.inr ⟨_, _, rfl⟩
      | split
      | simp only []

theorem parseObjectAttributes_shape (l : List Char) :
    (∃ e, parseObjectAttributes l = (.error e, l)) ∨
      ∃ v l2, parseObjectAttributes l = (.ok v, l2) := by
  unfold parseObjectAttributes
  repeat'
    first
      | exact Or.inl ⟨_, rfl⟩
      | exact Or.inr ⟨_, _, rfl⟩
      | split
      | simp only []

theorem pObj_shape (P : Parsers) (l : List Char) :
    (∃ e, (parsersSucc P).pObj l = (.error e, l)) ∨
      ∃ v l2, (parsersSucc P).pObj l = (.ok v, l2) := by
  simp only [parsersSucc]
  repeat'
    first
      | exact Or.inl ⟨_, rfl⟩
      | exact Or.inr ⟨_, _, rfl⟩
      | split

theorem pArr_shape (P : Parsers) (l : List Char) :
    (∃ e, (parsersSucc P).pArr l = (.error e, l)) ∨
      ∃ v l2, (parsersSucc P).pArr l = (.ok v, l2) := by
  simp only [parsersSucc]
  repeat'
    first
      | exact Or.inl ⟨_, rfl⟩
      | exact Or.inr ⟨_, _, rfl⟩
      | split

theorem pDict_shape (P : Parsers) (l : List Char) :
    (∃ e, (parsersSucc P).pDict l = (.error e, l)) ∨
      ∃ v l2, (parsersSucc P).pDict l = (.ok v, l2) := by
  simp only [parsersSucc]
  repeat'
    first
      | exact Or.inl ⟨_, rfl⟩
      | exact Or.inr ⟨_, _, rfl⟩
      | split

theorem err_preserves_of_shape {α : Type} {f : List Char → Except PErr α × List Char}
    (hf : ∀ l, (∃ e, f l = (.error e, l)) ∨ ∃ v l2, f l = (.ok v, l2))
    (l : List Char) (e : PErr) (h : (f l).1 = .error e) : (f l).2 = l := by
  rcases hf l with ⟨e', he⟩ | ⟨v, l2, hv⟩
  · rw [he]
  · rw [hv] at h
    exact absurd h (fun hh => Except.noConfusion hh)

/-- C10: a failed parse is atomic with respect to the caller-visible
cursor: whenever any of the by-reference parsers returns an error, the
buffer it hands back is exactly the buffer it was passed (the Go source
assigns `*line` only on successful returns). -/
theorem parsers_error_preserves_buffer :
    (∀ fuel l e, (parseObject fuel l).1 = .error e → (parseObject fuel l).2 = l) ∧
    (∀ fuel l e, (parseArray fuel l).1 = .error e → (parseArray fuel l).2 = l) ∧
    (∀ fuel l e, (parseDict fuel l).1 = .error e → (parseDict fuel l).2 = l) ∧
    (∀ l e, (parseName l).1 = .error e → (parseName l).2 = l) ∧
    (∀ l e, (parseStringLiteral l).1 = .error e → (parseStringLiteral l).2 = l) ∧
    (∀ l e, (parseHexLiteral l).1 = .error e → (parseHexLiteral l).2 = l) ∧
    (∀ l e, (parseNumericOrIndRef l).1 = .error e → (parseNumericOrIndRef l).2 = l) ∧
    (∀ l e, (parseObjectAttributes l).1 = .error e → (parseObjectAttributes l).2 = l) := by
  refine ⟨?_, ?_, ?_,
    err_preserves_of_shape parseName_shape,
    err_preserves_of_shape parseStringLiteral_shape,
    err_preserves_of_shape parseHexLiteral_shape,
    err_preserves_of_shape parseNumericOrIndRef_shape,
    err_preserves_of_shape parseObjectAttributes_shape⟩
  · intro fuel
    cases fuel with
    | zero => intro l e h; rfl
    | succ n => exact err_preserves_of_shape (pObj_shape (mkParsers n))
  · intro fuel
    cases fuel with
    | zero => intro l e h; rfl
    | succ n => exact err_preserves_of_shape (pArr_shape (mkParsers n))
  · intro fuel
    cases fuel with
    | zero => intro l e h; rfl
    | succ n => exact err_preserves_of_shape (pDict_shape (mkParsers n))

/-- Witness for C10 at the empty buffer (the NoBuffer error) and at the
corrupt-array input "x". -/
theorem parsers_error_preserves_buffer_witness :
    (parseObject 1 ([] : List Char)).2 = [] ∧ (parseArray 1 ['x']).2 = ['x'] :=
  ⟨parsers_error_preserves_buffer.1 1 [] .bufNotAvailable rfl,
   parsers_error_preserves_buffer.2.1 1 ['x'] .arrayCorrupt rfl⟩

theorem expandIndexPairs_of_intPairs :
    ∀ (ind : List PDFObj) (ps : List (Int × Int)), intPairs ind = some ps →
      expandIndexPairs ind = .ok ((ps.map (fun p => objRange p.1 p.2)).flatten)
  | [], ps, h => by
    simp only [intPairs, Option.some.injEq] at h
    subst h
    rfl
  | [x], ps, h => by
    simp only [intPairs, Option.some.injEq] at h
    subst h
    rfl
  | a :: b :: rest, ps, h => by
    cases a with
    | integer s =>
      cases b with
      | integer c =>
        rcases hv : intPairs rest with _ | ps'
        · rw [intPairs, hv] at h
          exact absurd h (by simp)
        · rw [intPairs, hv] at h
          simp only [Option.map_some', Option.some.injEq] at h
          subst h
          have ih := expandIndexPairs_of_intPairs rest ps' hv
          simp only [expandIndexPairs, ih, List.map_cons, List.flatten_cons]
      | null => exact absurd h (by simp [intPairs])
      | boolean bb => exact absurd h (by simp [intPairs])
      | float tk => exact absurd h (by simp [intPairs])
      | name nm => exact absurd h (by simp [intPairs])
      | stringLit sl => exact absurd h (by simp [intPairs])
      | hexLit hl => exact absurd h (by simp [intPairs])
      | array ar => exact absurd h (by simp [intPairs])
      | dict dd => exact absurd h (by simp [intPairs])
      | indRef o g => exact absurd h (by simp [intPairs])
    | null => exact absurd h (by simp [intPairs])
    | boolean bb => exact absurd h (by simp [intPairs])
    | float tk => exact absurd h (by simp [intPairs])
    | name nm => exact absurd h (by simp [intPairs])
    | stringLit sl => exact absurd h (by simp [intPairs])
    | hexLit hl => exact absurd h (by simp [intPairs])
    | array ar => exact absurd h (by simp [intPairs])
    | dict dd => exact absurd h (by simp [intPairs])
    | indRef o g => exact absurd h (by simp [intPairs])

theorem flatten_length_counts (ps : List (Int × Int))
    (hpos : ∀ p ∈ ps, 0 ≤ p.2) :
    ((((ps.map (fun p => objRange p.1 p.2)).flatten).length : Int)) =
      indexCountSum ps := by
  induction ps with
  | nil => rfl
  | cons p ps ih =>
    have hp := hpos p (List.mem_cons_self _ _)
    have ih' := ih (fun q hq => hpos q (List.mem_cons_of_mem _ hq))
    have hlen : ((objRange p.1 p.2).length : Int) = p.2 := by
      unfold objRange
      rw [List.length_map, List.length_range]
      exact Int.toNat_of_nonneg hp
    simp only [List.map_cons, List.flatten_cons, List.length_append,
      indexCountSum, List.map_cons, List.sum_cons]
    push_cast
    rw [hlen]
    simp only [indexCountSum] at ih'
    rw [ih']

theorem parseXRefStreamDict_ok_inv {sd : PDFStreamDict} {r : PDFXRefStreamDict}
    (h : parseXRefStreamDict sd = .ok r) :
    sd.size = some r.size ∧ xrefObjects r.size sd.index = .ok r.objects := by
  unfold parseXRefStreamDict at h
  repeat' split at h
  all_goals first
    | (injection h with h'
       subst h'
       exact ⟨by simp_all, by simp_all⟩)
    | injection h

/-- C3 (amended): in a successfully built cross-reference-stream
descriptor, when `Index` is present each (start, count) pair
contributes exactly the numbers start, …, start+count−1 in order (a
pair whose count is not positive contributes nothing), and when every
count is non-negative the list length equals the sum of the counts;
when `Index` is absent the list is exactly 0 … Size−1, whose length
equals the declared Size whenever Size is non-negative. -/
theorem parseXRefStreamDict_objects_spec (sd : PDFStreamDict)
    (r : PDFXRefStreamDict) (h : parseXRefStreamDict sd = .ok r) :
    (∀ ind ps, sd.index = some ind → intPairs ind = some ps →
      r.objects = (ps.map (fun p => objRange p.1 p.2)).flatten ∧
      ((∀ p ∈ ps, 0 ≤ p.2) → (r.objects.length : Int) = indexCountSum ps)) ∧
    (sd.index = none → ∀ sz, sd.size = some sz →
      r.objects = (List.range sz.toNat).map (fun j => Int.ofNat j) ∧
      (0 ≤ sz → (r.objects.length : Int) = sz)) := by
  obtain ⟨hsz, hobjs⟩ := parseXRefStreamDict_ok_inv h
  constructor
  · intro ind ps hind hps
    rw [hind] at hobjs
    simp only [xrefObjects] at hobjs
    rw [if_neg (by omega)] at hobjs
    rw [expandIndexPairs_of_intPairs ind ps hps] at hobjs
    have hobj : r.objects = (ps.map (fun p => objRange p.1 p.2)).flatten := by
      injection hobjs with h'
      exact h'.symm
    refine ⟨hobj, fun hpos => ?_⟩
    rw [hobj]
    exact flatten_length_counts ps hpos
  · intro hind sz hsz2
    rw [hind] at hobjs
    rw [hsz2] at hsz
    injection hsz with hsz'
    subst hsz'
    simp only [xrefObjects] at hobjs
    have hobj : r.objects = (List.range r.size.toNat).map (fun j => Int.ofNat j) := by
      injection hobjs with h'
      exact h'.symm
    refine ⟨hobj, fun hpos => ?_⟩
    rw [hobj]
    simp only [List.length_map, List.length_range]
    exact Int.toNat_of_nonneg hpos

/-- Counterexample for C3 as stated: with `Index = [0, −1]` the
descriptor builds successfully with an EMPTY object-number list (the
pair loop runs zero iterations for a negative count), so the list
length 0 differs from the sum of the `Index` counts, which is −1. -/
theorem parseXRefStreamDict_negCount_cex :
    parseXRefStreamDict ⟨some 5, some [.integer 0, .integer (-1)],
        some [.integer 1, .integer 1, .integer 1], none⟩ =
      .ok ⟨⟨some 5, some [.integer 0, .integer (-1)],
        some [.integer 1, .integer 1, .integer 1], none⟩, 5, [], (1, 1, 1), none⟩ ∧
    intPairs [.integer 0, .integer (-1)] = some [(0, -1)] ∧
    indexCountSum [(0, -1)] = -1 ∧
    ((([] : List Int).length : Int) ≠ -1) := by
  refine ⟨rfl, rfl, by decide, by decide⟩

/-- Witness for C3 at the spec's own example `Index = [2,3,10,1]`
(objects [2,3,4,10], length 4 = 3+1) and at an Index-free descriptor
with `Size = 4` (objects 0…3 of length 4). -/
theorem parseXRefStreamDict_objects_spec_witness :
    (⟨⟨some 20, some [.integer 2, .integer 3, .integer 10, .integer 1],
        some [.integer 1, .integer 2, .integer 1], none⟩, 20, [2, 3, 4, 10],
        (1, 2, 1), none⟩ : PDFXRefStreamDict).objects =
      (([((2 : Int), (3 : Int)), (10, 1)].map (fun p => objRange p.1 p.2)).flatten) ∧
    ((([2, 3, 4, 10] : List Int).length : Int) = indexCountSum [(2, 3), (10, 1)]) ∧
    (⟨⟨some 4, none, some [.integer 1, .integer 2, .integer 1], some 99⟩, 4,
        [0, 1, 2, 3], (1, 2, 1), some 99⟩ : PDFXRefStreamDict).objects =
      (List.range (4 : Int).toNat).map (fun j => Int.ofNat j) := by
  have h1 := parseXRefStreamDict_objects_spec
    ⟨some 20, some [.integer 2, .integer 3, .integer 10, .integer 1],
      some [.integer 1, .integer 2, .integer 1], none⟩
    ⟨⟨some 20, some [.integer 2, .integer 3, .integer 10, .integer 1],
      some [.integer 1, .integer 2, .integer 1], none⟩, 20, [2, 3, 4, 10],
      (1, 2, 1), none⟩ rfl
  have h2 := parseXRefStreamDict_objects_spec
    ⟨some 4, none, some [.integer 1, .integer 2, .integer 1], some 99⟩
    ⟨⟨some 4, none, some [.integer 1, .integer 2, .integer 1], some 99⟩, 4,
      [0, 1, 2, 3], (1, 2, 1), some 99⟩ rfl
  obtain ⟨ha, hb⟩ := h1.1 [.integer 2, .integer 3, .integer 10, .integer 1]
    [(2, 3), (10, 1)] rfl rfl
  refine ⟨ha, hb (by decide), ?_⟩
  exact (h2.2 rfl 4 rfl).1

/-- C4 evaluation: an odd-length `Index` array does NOT fail: the guard
`len(indArr) % 2 > 1` of the source is never true (a remainder modulo 2
is 0 or 1), so `Index = [2]` passes, its dangling element is silently
ignored by the pair loop, and the descriptor builds with an empty
object list instead of failing with CorruptIndexEntry. -/
theorem parseXRefStreamDict_oddIndex_succeeds :
    parseXRefStreamDict ⟨some 1, some [.integer 2],
        some [.integer 1, .integer 1, .integer 1], none⟩ =
      .ok ⟨⟨some 1, some [.integer 2], some [.integer 1, .integer 1, .integer 1],
        none⟩, 1, [], (1, 1, 1), none⟩ ∧
    ¬ ([PDFObj.integer 2].length % 2 > 1) ∧
    expandIndexPairs [PDFObj.integer 2] = .ok [] :=
  ⟨rfl, by decide, rfl⟩

/-- A well-formed `W` entry: an array of exactly three non-negative
integers. -/
def goodW (arr : List PDFObj) : Prop :=
  ∃ a b c : Int,
    arr = [.integer a, .integer b, .integer c] ∧ 0 ≤ a ∧ 0 ≤ b ∧ 0 ≤ c

/-- C5: past the Size and Index steps, `parseXRefStreamDict` requires a
`W` entry of exactly 3 non-negative integers: an absent `W` fails with
the missing-field-widths error; a `W` of the wrong length, with a
non-integer element, or with a negative value fails with the
corrupt-field-widths error; and on success the three widths appear
verbatim in the returned descriptor. -/
theorem parseXRefStreamDict_w_spec (sd : PDFStreamDict) (sz : Int)
    (objs : List Int) (hsz : sd.size = some sz)
    (hobjs : xrefObjects sz sd.index = .ok objs) :
    (sd.w = none → parseXRefStreamDict sd = .error .xrefStreamMissingW) ∧
    (∀ arr, sd.w = some arr →
      (¬ goodW arr → parseXRefStreamDict sd = .error .xrefStreamCorruptW) ∧
      (∀ a b c : Int, arr = [.integer a, .integer b, .integer c] →
        0 ≤ a → 0 ≤ b → 0 ≤ c →
        parseXRefStreamDict sd = .ok ⟨sd, sz, objs, (a, b, c), sd.prev⟩)) := by
  unfold parseXRefStreamDict
  simp only [hsz, hobjs]
  constructor
  · intro hw
    simp only [hw]
  · intro arr hw
    simp only [hw]
    constructor
    · intro hbad
      rcases arr with _ | ⟨a0, _ | ⟨a1, _ | ⟨a2, _ | ⟨a3, arr4⟩⟩⟩⟩
      · rfl
      · cases a0 <;> rfl
      · cases a0 <;> cases a1 <;> rfl
      · cases a0 with
        | integer ia =>
          by_cases h0 : ia < 0
          · simp [h0]
          · cases a1 with
            | integer ib =>
              by_cases hb : ib < 0
              · simp [h0, hb]
              · cases a2 with
                | integer ic =>
                  by_cases hc : ic < 0
                  · simp [h0, hb, hc]
                  · exact absurd ⟨ia, ib, ic, rfl, by omega, by omega, by omega⟩ hbad
                | null => simp [h0, hb]
                | boolean bb => simp [h0, hb]
                | float tk => simp [h0, hb]
                | name nm => simp [h0, hb]
                | stringLit sl => simp [h0, hb]
                | hexLit hl => simp [h0, hb]
                | array ar => simp [h0, hb]
                | dict dd => simp [h0, hb]
                | indRef o g => simp [h0, hb]
            | null => simp [h0]
            | boolean bb => simp [h0]
            | float tk => simp [h0]
            | name nm => simp [h0]
            | stringLit sl => simp [h0]
            | hexLit hl => simp [h0]
            | array ar => simp [h0]
            | dict dd => simp [h0]
            | indRef o g => simp [h0]
        | null => rfl
        | boolean bb => rfl
        | float tk => rfl
        | name nm => rfl
        | stringLit sl => rfl
        | hexLit hl => rfl
        | array ar => rfl
        | dict dd => rfl
        | indRef o g => rfl
      · cases a0 <;> rfl
    · rintro a b c rfl h0a h0b h0c
      simp only []
      rw [if_neg (by omega), if_neg (by omega), if_neg (by omega)]

/-- Witness for C5: missing `W`, a length-2 `W`, a `W` with a negative
entry, and a well-formed `W` whose widths are carried verbatim. -/
theorem parseXRefStreamDict_w_spec_witness :
    parseXRefStreamDict ⟨some 3, none, none, none⟩ =
      .error .xrefStreamMissingW ∧
    parseXRefStreamDict ⟨some 3, none, some [.integer 1, .integer 2], none⟩ =
      .error .xrefStreamCorruptW ∧
    parseXRefStreamDict
        ⟨some 3, none, some [.integer 1, .integer (-2), .integer 1], none⟩ =
      .error .xrefStreamCorruptW ∧
    parseXRefStreamDict
        ⟨some 3, none, some [.integer 1, .integer 2, .integer 0], some 7⟩ =
      .ok ⟨⟨some 3, none, some [.integer 1, .integer 2, .integer 0], some 7⟩, 3,
        [0, 1, 2], (1, 2, 0), some 7⟩ := by
  refine ⟨?_, ?_, ?_, ?_⟩
  · exact (parseXRefStreamDict_w_spec ⟨some 3, none, none, none⟩ 3 [0, 1, 2]
      rfl rfl).1 rfl
  · refine ((parseXRefStreamDict_w_spec
      ⟨some 3, none, some [.integer 1, .integer 2], none⟩ 3 [0, 1, 2]
      rfl rfl).2 _ rfl).1 ?_
    rintro ⟨a, b, c, heq, -, -, -⟩
    simp at heq
  · refine ((parseXRefStreamDict_w_spec
      ⟨some 3, none, some [.integer 1, .integer (-2), .integer 1], none⟩ 3
      [0, 1, 2] rfl rfl).2 _ rfl).1 ?_
    rintro ⟨a, b, c, heq, -, hb, -⟩
    simp only [List.cons.injEq, PDFObj.integer.injEq, and_true] at heq
    omega
  · exact ((parseXRefStreamDict_w_spec
      ⟨some 3, none, some [.integer 1, .integer 2, .integer 0], some 7⟩ 3
      [0, 1, 2] rfl rfl).2 _ rfl).2 1 2 0 rfl (by omega) (by omega) (by omega)
